import Mathlib

/-!
Verification development for the kconduit Kafka terminal client.

The definitions below are a shallow embedding of the repository's core:
the AI-assistant command interpreter and batch executor
(`pkg/ui/ai_assistant.go`), the Kafka client operations
(`pkg/kafka`: `ModifyTopicPartitions`, `CreateTopic`, `UpdateTopicConfig`,
`DeleteTopic`, `calculateConsumerLag`, `ConsumeMessages`,
`GetTopicDetails`), and the consumer-offset dialog of `pkg/ui/consumer.go`.
External collaborators (the sarama admin/consumer API, `encoding/json`)
are modelled as explicit oracle environments.
-/

namespace KConduit

/-! ## JSON values, as decoded by `encoding/json` into `map[string]interface{}` -/

/-- A decoded JSON value as Go's `encoding/json` produces it into
`interface{}`: strings, numbers (`float64` in Go; the interpreter only
ever uses integral values, embedded as `Int`), nested objects, and a
catch-all for values whose concrete type the interpreter never asserts
(booleans, nulls, arrays). -/
inductive JValue where
  | str (s : String)
  | num (n : Int)
  | obj (fields : List (String × JValue))
  | other
  deriving Repr

/-- A decoded JSON object (`map[string]interface{}` in Go), embedded as an
association list in decode order. -/
abbrev JObj := List (String × JValue)

/-- Map lookup, `m["k"]` returning the first binding. -/
def jlookup (fields : JObj) (k : String) : Option JValue :=
  (fields.find? (fun p => p.1 == k)).map Prod.snd

/-- Go type assertion `v.(string)`. -/
def JValue.asString : JValue → Option String
  | .str s => some s
  | _ => none

/-- Go type assertion `v.(float64)`. -/
def JValue.asNum : JValue → Option Int
  | .num n => some n
  | _ => none

/-- Go type assertion `v.(map[string]interface{})`. -/
def JValue.asObj : JValue → Option JObj
  | .obj f => some f
  | _ => none

/-- `s, _ := command["k"].(string)`: the zero value `""` on a missing key
or failed assertion. -/
def getString (command : JObj) (k : String) : String :=
  ((jlookup command k).bind JValue.asString).getD ""

/-- `n, _ := command["k"].(float64)`: the zero value `0` on a missing key
or failed assertion. -/
def getNum (command : JObj) (k : String) : Int :=
  ((jlookup command k).bind JValue.asNum).getD 0

/-- `m, _ := command["k"].(map[string]interface{})`: a `nil` map (here
`none`) on a missing key or failed assertion. -/
def getObj (command : JObj) (k : String) : Option JObj :=
  (jlookup command k).bind JValue.asObj

/-! ## Cluster driver environment and the kafka client operations -/

/-- Topic metadata as used by `GetTopicDetails` / `admin.ListTopics`
(`TopicInfo` in `pkg/kafka`). -/
structure TopicInfo where
  name : String
  partitions : Int
  replicationFactor : Int
  deriving Repr, DecidableEq

/-- Consumer group summary as produced by `GetConsumerGroups`
(`ConsumerGroupInfo` in `pkg/kafka`). -/
structure GroupInfo where
  groupID : String
  state : String
  numMembers : Int
  numTopics : Int
  consumerLag : Int
  topics : List String
  deriving Repr, DecidableEq

/-- A cluster RPC issued through the sarama admin client.  The trace of
these operations is what the safety claims quantify over. -/
inductive ClusterOp where
  | listTopicsOp
  | createTopicOp (name : String) (partitions replicationFactor : Int)
  | alterConfigOp (topic key value : String)
  | createPartitionsOp (topic : String) (count : Int)
  | deleteTopicOp (name : String)
  | listGroupsOp
  | topicConfigOp (name : String)
  deriving Repr, DecidableEq

/-- Oracle responses of the cluster driver: each RPC either succeeds or
fails with an error message (`some err`); metadata queries either return
data or fail (`none`). -/
structure ClusterEnv where
  listTopicsRes : Option (List TopicInfo)
  createTopicRes : String → Int → Int → Option String
  alterConfigRes : String → String → String → Option String
  createPartitionsRes : String → Int → Option String
  deleteTopicRes : String → Option String
  topicDetailsRes : Option (List TopicInfo)
  consumerGroupsRes : Option (List GroupInfo)
  topicConfigRes : String → Option (List (String × String))

/-- `Client.CreateTopic` (pkg/kafka): empty name is rejected; partition
count and replication factor below 1 are clamped to 1; then
`admin.CreateTopic` is issued. -/
def createTopicClient (env : ClusterEnv) (name : String) (numPartitions replicationFactor : Int) :
    Option String × List ClusterOp :=
  if name = "" then (some "topic name cannot be empty", [])
  else
    let p := if numPartitions < 1 then 1 else numPartitions
    let r := if replicationFactor < 1 then 1 else replicationFactor
    match env.createTopicRes name p r with
    | some e => (some ("failed to create topic: " ++ e), [ClusterOp.createTopicOp name p r])
    | none => (none, [ClusterOp.createTopicOp name p r])

/-- `Client.UpdateTopicConfig` (pkg/kafka): empty topic name or config key
is rejected; then `admin.AlterConfig` is issued. -/
def updateTopicConfigClient (env : ClusterEnv) (topic key value : String) :
    Option String × List ClusterOp :=
  if topic = "" ∨ key = "" then (some "topic name and config key cannot be empty", [])
  else
    match env.alterConfigRes topic key value with
    | some e => (some ("failed to update topic config: " ++ e), [ClusterOp.alterConfigOp topic key value])
    | none => (none, [ClusterOp.alterConfigOp topic key value])

/-- `Client.DeleteTopic` (pkg/kafka): the only code path that issues the
destructive `admin.DeleteTopic` RPC.  It exists on the client but, as
proved below, is never reached from the AI-assistant dispatch. -/
def deleteTopicClient (env : ClusterEnv) (name : String) :
    Option String × List ClusterOp :=
  if name = "" then (some "topic name cannot be empty", [])
  else
    match env.deleteTopicRes name with
    | some e => (some ("failed to delete topic: " ++ e), [ClusterOp.deleteTopicOp name])
    | none => (none, [ClusterOp.deleteTopicOp name])

/-- `Client.ModifyTopicPartitions` (pkg/kafka): rejects an empty topic
name and a partition count below 1, fetches topic metadata, rejects an
unknown topic and a target not strictly greater than the current count,
and only then issues `admin.CreatePartitions`. -/
def modifyTopicPartitionsClient (env : ClusterEnv) (topicName : String) (numPartitions : Int) :
    Option String × List ClusterOp :=
  if topicName = "" then (some "topic name cannot be empty", [])
  else if numPartitions < 1 then (some "number of partitions must be at least 1", [])
  else
    match env.listTopicsRes with
    | none => (some "failed to list topics", [ClusterOp.listTopicsOp])
    | some metadata =>
      match metadata.find? (fun t => t.name == topicName) with
      | none => (some ("topic " ++ topicName ++ " not found"), [ClusterOp.listTopicsOp])
      | some topicMeta =>
        if numPartitions ≤ topicMeta.partitions then
          (some "new partition count must be greater than current count",
           [ClusterOp.listTopicsOp])
        else
          match env.createPartitionsRes topicName numPartitions with
          | some e => (some ("failed to modify partitions: " ++ e),
                       [ClusterOp.listTopicsOp, ClusterOp.createPartitionsOp topicName numPartitions])
          | none => (none,
                     [ClusterOp.listTopicsOp, ClusterOp.createPartitionsOp topicName numPartitions])

/-- `Client.GetTopicDetails` as seen from the UI dispatch: a metadata
query that either returns the topic snapshot or fails. -/
def getTopicDetailsClient (env : ClusterEnv) :
    Option (List TopicInfo) × List ClusterOp :=
  (env.topicDetailsRes, [ClusterOp.listTopicsOp])

/-- `Client.GetConsumerGroups` as seen from the UI dispatch. -/
def getConsumerGroupsClient (env : ClusterEnv) :
    Option (List GroupInfo) × List ClusterOp :=
  (env.consumerGroupsRes, [ClusterOp.listGroupsOp])

/-- `Client.GetTopicConfig` as seen from the UI dispatch: returns the
topic's config entries or fails. -/
def getTopicConfigClient (env : ClusterEnv) (name : String) :
    Option (List (String × String)) × List ClusterOp :=
  (env.topicConfigRes name, [ClusterOp.topicConfigOp name])

/-! ## Batch execution (`executeMultipleCommands` in pkg/ui/ai_assistant.go) -/

/-- The `for key, value := range configs` loop shared by the
`modify_config` and `create_topic` handlers: each entry whose value is a
string is applied with `UpdateTopicConfig`; successes accumulate as
`key=value`, failures as `key: err`; non-string values are ignored. -/
def applyConfigsLoop (env : ClusterEnv) (topic : String) :
    List (String × JValue) → List String × List String × List ClusterOp
  | [] => ([], [], [])
  | (key, value) :: rest =>
    let tail := applyConfigsLoop env topic rest
    match value.asString with
    | none => tail
    | some strValue =>
      match updateTopicConfigClient env topic key strValue with
      | (some e, ops) => (tail.1, (key ++ ": " ++ e) :: tail.2.1, ops ++ tail.2.2)
      | (none, ops) => ((key ++ "=" ++ strValue) :: tail.1, tail.2.1, ops ++ tail.2.2)

/-- One iteration of the batch loop in `executeMultipleCommands`: the
`switch action` statement.  Returns the `result` string — left `""` when
the record is skipped (no `action` string, an action outside the three
batch-recognized kinds, or guard conditions on its fields failing) — and
the cluster operations issued. -/
def execBatchStep (env : ClusterEnv) (command : JObj) : String × List ClusterOp :=
  match (jlookup command "action").bind JValue.asString with
  | none => ("", [])
  | some action =>
    if action = "modify_partitions" then
      let topic := getString command "topic"
      let partitions := getNum command "partitions"
      if topic ≠ "" ∧ partitions > 0 then
        match modifyTopicPartitionsClient env topic partitions with
        | (some e, ops) => (s!"Failed to modify partitions for {topic}: {e}", ops)
        | (none, ops) => (s!"Successfully increased partitions for {topic} to {partitions}", ops)
      else ("", [])
    else if action = "modify_config" then
      let topic := getString command "topic"
      match getObj command "configs" with
      | some configs =>
        if topic ≠ "" then
          let (configChanges, configErrors, ops) := applyConfigsLoop env topic configs
          let changed := String.intercalate ", " configChanges
          let failed := String.intercalate ", " configErrors
          if configErrors ≠ [] then
            (s!"Partially updated {topic}. Success: {changed}, Failed: {failed}", ops)
          else if configChanges ≠ [] then
            (s!"Successfully updated {topic}: {changed}", ops)
          else ("", ops)
        else ("", [])
      | none => ("", [])
    else if action = "create_topic" then
      let name := getString command "name"
      let partitions := getNum command "partitions"
      let replicationFactor := getNum command "replication_factor"
      if name ≠ "" then
        match createTopicClient env name partitions replicationFactor with
        | (some e, ops) => (s!"Failed to create topic {name}: {e}", ops)
        | (none, ops) =>
          match getObj command "configs" with
          | some configs =>
            let applied := applyConfigsLoop env name configs
            (s!"Successfully created topic {name}", ops ++ applied.2.2)
          | none => (s!"Successfully created topic {name}", ops)
      else ("", [])
    else ("", [])

/-- The batch loop of `executeMultipleCommands`, from step index `i`:
unconditionally runs every record in order, appending
`"Step {index}: {result}"` only when the step produced a non-empty
result. -/
def executeMultipleCommandsFrom (env : ClusterEnv) (i : Nat) :
    List JObj → List String × List ClusterOp
  | [] => ([], [])
  | command :: rest =>
    let (result, ops) := execBatchStep env command
    let tail := executeMultipleCommandsFrom env (i + 1) rest
    if result = "" then (tail.1, ops ++ tail.2)
    else ((s!"Step {i+1}: {result}") :: tail.1, ops ++ tail.2)

/-- `executeMultipleCommands` (pkg/ui/ai_assistant.go): the responses
rendered as the step log, plus the trace of cluster operations issued. -/
def executeMultipleCommands (env : ClusterEnv) (commands : List JObj) :
    List String × List ClusterOp :=
  executeMultipleCommandsFrom env 0 commands

/-! ## Single-command dispatch (`parseAndExecuteCommand` switch, pkg/ui/ai_assistant.go) -/

/-- `strings.Contains`, by scanning for the pattern at each suffix. -/
def strContainsAux (pat : List Char) : List Char → Bool
  | [] => pat.isEmpty
  | c :: rest => pat.isPrefixOf (c :: rest) || strContainsAux pat rest

/-- `strings.Contains`. -/
def strContains (s sub : String) : Bool :=
  strContainsAux sub.data s.data

/-- The `modify_all_partitions` per-topic loop: a topic below the target
is attempted with `ModifyTopicPartitions` (recording a success or a
failure entry); a topic already at or above the target is skipped
silently.  `attempts` records the topics for which the client call was
made. -/
structure AllPartsResult where
  successes : List String
  failures : List String
  attempts : List String
  ops : List ClusterOp
  deriving Repr

def modifyAllPartitionsLoop (env : ClusterEnv) (target : Int) :
    List TopicInfo → AllPartsResult
  | [] => ⟨[], [], [], []⟩
  | topic :: rest =>
    let tail := modifyAllPartitionsLoop env target rest
    if topic.partitions < target then
      match modifyTopicPartitionsClient env topic.name target with
      | (some e, ops) =>
        ⟨tail.successes, (topic.name ++ ": " ++ e) :: tail.failures,
         topic.name :: tail.attempts, ops ++ tail.ops⟩
      | (none, ops) =>
        ⟨topic.name :: tail.successes, tail.failures,
         topic.name :: tail.attempts, ops ++ tail.ops⟩
    else tail

/-- The `modify_all_configs` per-topic loop: every config entry is applied
to every topic, recording per-topic partial successes and failures. -/
def modifyAllConfigsLoop (env : ClusterEnv) (configs : JObj) :
    List TopicInfo → List String × List String × List ClusterOp
  | [] => ([], [], [])
  | topic :: rest =>
    let tail := modifyAllConfigsLoop env configs rest
    let (configChanges, configErrors, ops) := applyConfigsLoop env topic.name configs
    let withRes := if configChanges ≠ [] then
        (topic.name :: tail.1, tail.2.1) else (tail.1, tail.2.1)
    let withErr := if configErrors ≠ [] then
        (withRes.1, topic.name :: withRes.2) else withRes
    (withErr.1, withErr.2, ops ++ tail.2.2)

/-- The `query_consumer_groups` filter: a group is excluded when its lag
is at or below `lag_greater_than`, when its id does not contain
`group_id_contains`, or when its state differs (case-insensitively) from
`state`; an absent (`nil`) filter or a missing key filters nothing. -/
def groupIncluded (filter : Option JObj) (g : GroupInfo) : Bool :=
  let lagOk :=
    match (filter.bind (fun f => jlookup f "lag_greater_than")).bind JValue.asNum with
    | some lagThreshold => decide (g.consumerLag > lagThreshold)
    | none => true
  let idOk :=
    match (filter.bind (fun f => jlookup f "group_id_contains")).bind JValue.asString with
    | some sub => strContains g.groupID sub
    | none => true
  let stateOk :=
    match (filter.bind (fun f => jlookup f "state")).bind JValue.asString with
    | some st => g.state.toLower == st.toLower
    | none => true
  lagOk && idOk && stateOk

/-- `config.Configs[key]`: a Go string-map access with the zero value `""`
for a missing key. -/
def configValue (configList : List (String × String)) (k : String) : String :=
  ((configList.find? (fun p => p.1 == k)).map Prod.snd).getD ""

/-- The `query_topics` compression predicate applied to a fetched config:
`"none"` matches an empty, `producer` or `none` compression type; any
other requested value must match exactly; a failed config fetch leaves
the topic included. -/
def compressionIncluded (compression : String) (configRes : Option (List (String × String))) :
    Bool :=
  match configRes with
  | none => true
  | some configList =>
    let compressionType := configValue configList "compression.type"
    if compression = "none" then
      if compressionType ≠ "" ∧ compressionType ≠ "producer" ∧ compressionType ≠ "none" then
        false
      else true
    else compressionType == compression

/-- The `query_topics` filter for one topic; the compression check issues
a `GetTopicConfig` call, so the operations are part of the result. -/
def topicIncluded (env : ClusterEnv) (filter : Option JObj) (t : TopicInfo) :
    Bool × List ClusterOp :=
  let nameOk :=
    match (filter.bind (fun f => jlookup f "name_contains")).bind JValue.asString with
    | some sub => strContains t.name sub
    | none => true
  let partsOk :=
    match (filter.bind (fun f => jlookup f "partitions_greater_than")).bind JValue.asNum with
    | some n => decide (t.partitions > n)
    | none => true
  let rfOk :=
    match (filter.bind (fun f => jlookup f "replication_factor")).bind JValue.asNum with
    | some n => t.replicationFactor == n
    | none => true
  match (filter.bind (fun f => jlookup f "compression")).bind JValue.asString with
  | some compression =>
    let (configRes, ops) := getTopicConfigClient env t.name
    (nameOk && partsOk && rfOk && compressionIncluded compression configRes, ops)
  | none => (nameOk && partsOk && rfOk, [])

/-- The `query_topics` filter loop over the topic snapshot. -/
def filterTopicsLoop (env : ClusterEnv) (filter : Option JObj) :
    List TopicInfo → List TopicInfo × List ClusterOp
  | [] => ([], [])
  | t :: rest =>
    let (ok, ops) := topicIncluded env filter t
    let tail := filterTopicsLoop env filter rest
    (if ok then t :: tail.1 else tail.1, ops ++ tail.2)

/-- The `query_topics` response loop: when the filter mentions
compression, each included topic's config is fetched again for
display. -/
def describeTopicsLoop (env : ClusterEnv) (hasCompression : Bool) :
    List TopicInfo → List String × List ClusterOp
  | [] => ([], [])
  | t :: rest =>
    let tail := describeTopicsLoop env hasCompression rest
    if hasCompression then
      let (_, ops) := getTopicConfigClient env t.name
      (t.name :: tail.1, ops ++ tail.2)
    else (t.name :: tail.1, tail.2)

/-- The `switch action` of `parseAndExecuteCommand` for a single parsed
command: returns the response delivered to the UI (`none` when the
dispatch falls through and returns no command) and the trace of cluster
operations issued. -/
def executeSingleCommand (env : ClusterEnv) (command : JObj) :
    Option String × List ClusterOp :=
  match (jlookup command "action").bind JValue.asString with
  | none => (none, [])
  | some action =>
    if action = "create_topic" then
      let name := getString command "name"
      let partitions := getNum command "partitions"
      let replicationFactor := getNum command "replication_factor"
      if name ≠ "" then
        match createTopicClient env name partitions replicationFactor with
        | (some e, ops) => (some s!"Failed to create topic: {e}", ops)
        | (none, ops) =>
          match getObj command "configs" with
          | some configs =>
            let applied := applyConfigsLoop env name configs
            (some s!"Successfully created topic {name} with {partitions} partitions and replication factor {replicationFactor}",
             ops ++ applied.2.2)
          | none =>
            (some s!"Successfully created topic {name} with {partitions} partitions and replication factor {replicationFactor}",
             ops)
      else (none, [])
    else if action = "modify_partitions" then
      let topic := getString command "topic"
      let partitions := getNum command "partitions"
      if topic ≠ "" ∧ partitions > 0 then
        match modifyTopicPartitionsClient env topic partitions with
        | (some e, ops) => (some s!"Failed to modify partitions: {e}", ops)
        | (none, ops) => (some s!"Successfully increased partitions for topic {topic} to {partitions}", ops)
      else (none, [])
    else if action = "modify_config" then
      let topic := getString command "topic"
      match getObj command "configs" with
      | some configs =>
        if topic ≠ "" then
          let (configChanges, configErrors, ops) := applyConfigsLoop env topic configs
          let changed := String.intercalate ", " configChanges
          let failed := String.intercalate ", " configErrors
          if configErrors ≠ [] then
            (some s!"Partially updated topic {topic}. Successful: {changed} Failed: {failed}", ops)
          else
            (some s!"Successfully updated configuration for topic {topic}: {changed}", ops)
        else (none, [])
      | none => (none, [])
    else if action = "modify_all_partitions" then
      let partitions := getNum command "partitions"
      if partitions > 0 then
        match getTopicDetailsClient env with
        | (none, ops) => (some "Failed to fetch topics", ops)
        | (some topics, ops) =>
          let res := modifyAllPartitionsLoop env partitions topics
          let nSucc := res.successes.length
          let nFail := res.failures.length
          (some s!"Updated {nSucc} topics, failed {nFail} topics", ops ++ res.ops)
      else (none, [])
    else if action = "modify_all_configs" then
      match getObj command "configs" with
      | some configs =>
        match getTopicDetailsClient env with
        | (none, ops) => (some "Failed to fetch topics", ops)
        | (some topics, ops) =>
          let (topicResults, topicErrors, loopOps) := modifyAllConfigsLoop env configs topics
          let nSucc := topicResults.length
          let nFail := topicErrors.length
          (some s!"Updated configuration for {nSucc} topics, failed for {nFail} topics",
           ops ++ loopOps)
      | none => (none, [])
    else if action = "query_consumer_groups" then
      let filter := getObj command "filter"
      match getConsumerGroupsClient env with
      | (none, ops) => (some "Failed to fetch consumer groups", ops)
      | (some groups, ops) =>
        let filtered := groups.filter (groupIncluded filter)
        let names := String.intercalate ", " (filtered.map (fun g => g.groupID))
        (some s!"Found {filtered.length} consumer groups: {names}", ops)
    else if action = "query_topics" then
      let filter := getObj command "filter"
      match getTopicDetailsClient env with
      | (none, ops) => (some "Failed to fetch topics", ops)
      | (some topics, ops) =>
        let (filtered, filterOps) := filterTopicsLoop env filter topics
        let hasCompression := (filter.bind (fun f => jlookup f "compression")).isSome
        let (names, descOps) := describeTopicsLoop env hasCompression filtered
        let joined := String.intercalate ", " names
        (some s!"Found {filtered.length} topics: {joined}", ops ++ filterOps ++ descOps)
    else (none, [])

/-! ## JSON extraction scanner (`parseAndExecuteCommand`, pkg/ui/ai_assistant.go) -/

/-- `strings.ReplaceAll(s, pat, "")`: scan left to right, removing each
non-overlapping occurrence of the (non-empty) pattern.  The fuel is set
by the callers to the input length plus one, which the scan can never
exhaust since every step consumes at least one character. -/
def removePat (pat : List Char) : Nat → List Char → List Char
  | 0, s => s
  | _ + 1, [] => []
  | fuel + 1, c :: rest =>
    if pat.isPrefixOf (c :: rest) ∧ pat ≠ [] then
      removePat pat fuel ((c :: rest).drop pat.length)
    else c :: removePat pat fuel rest

/-- Stripping Markdown code fences:
`strings.ReplaceAll(response, "```json", "")` then
`strings.ReplaceAll(response, "```", "")`. -/
def stripFences (response : String) : String :=
  let s1 := removePat "```json".data (response.data.length + 1) response.data
  String.mk (removePat "```".data (s1.length + 1) s1)

/-- The inner matching-brace scan: starting at the first `{` with
`braceCount = 0`, walk the bytes incrementing on `{` and decrementing on
`}`; when the count returns to zero the span (inclusive) and the rest of
the input are returned; `none` when the braces never rebalance. -/
def scanSpan (acc : List Char) (braceCount : Nat) : List Char → Option (List Char × List Char)
  | [] => none
  | c :: rest =>
    if c = '{' then scanSpan (c :: acc) (braceCount + 1) rest
    else if c = '}' then
      if braceCount = 1 then some ((c :: acc).reverse, rest)
      else scanSpan (c :: acc) (braceCount - 1) rest
    else scanSpan (c :: acc) braceCount rest

/-- The extraction loop: repeatedly find the next `{`, extract a balanced
span, decode it (`json.Unmarshal`, modelled by the `decode` oracle), keep
objects that carry an `action` key, and continue after the span.  The Go
loop terminates because each iteration consumes past the closing brace;
the embedding makes that explicit with a fuel argument that the top-level
wrapper sets high enough to never run out. -/
def extractLoop (decode : String → Option JObj) : Nat → List Char → List JObj
  | 0, _ => []
  | fuel + 1, remaining =>
    let afterStart := remaining.dropWhile (fun c => c ≠ '{')
    match scanSpan [] 0 afterStart with
    | none => []
    | some (_span, rest) =>
      let tail := extractLoop decode fuel rest
      match decode (String.mk _span) with
      | some command =>
        if (jlookup command "action").isSome then command :: tail else tail
      | none => tail

/-- `parseAndExecuteCommand`'s command collection: fences stripped, then
the balanced-brace extraction loop over the remaining text. -/
def parseCommands (decode : String → Option JObj) (response : String) : List JObj :=
  let s := stripFences response
  extractLoop decode (s.data.length + 1) s.data

/-- The spans alone, in order of appearance: the specification-side
description of the scanner against which `parseCommands` is compared. -/
def extractSpans : Nat → List Char → List (List Char)
  | 0, _ => []
  | fuel + 1, remaining =>
    let afterStart := remaining.dropWhile (fun c => c ≠ '{')
    match scanSpan [] 0 afterStart with
    | none => []
    | some (span, rest) =>
      span :: extractSpans fuel rest

/-! ## Lag calculation (`calculateConsumerLag`, pkg/kafka) -/

/-- Oracle responses driving one `calculateConsumerLag` run:
`offsetsRes` is `admin.ListConsumerGroupOffsets` (topic to committed
`(partition, offset)` blocks), `newConsumerOk` whether
`sarama.NewConsumer` succeeds, `partitionsOf` the partition list per
topic, and `highWaterMark` the transient cursor's high-water mark
(`none` when `ConsumePartition` fails). -/
structure LagEnv where
  offsetsRes : Option (List (String × List (Int × Int)))
  newConsumerOk : Bool
  partitionsOf : String → Option (List Int)
  highWaterMark : String → Int → Option Int

/-- The per-partition body of the lag loop: skip a partition that is
absent from the topic's current partition list, skip a failed cursor
open, and add `highWaterMark - committedOffset` only when the high-water
mark is positive, the committed offset is non-negative and the
difference is positive. -/
def partitionLagContribution (env : LagEnv) (topic : String) (partitions : List Int)
    (partitionID committedOffset : Int) : Int :=
  if partitionID ∈ partitions then
    match env.highWaterMark topic partitionID with
    | none => 0
    | some hwm =>
      if hwm > 0 ∧ committedOffset ≥ 0 then
        if hwm - committedOffset > 0 then hwm - committedOffset else 0
      else 0
  else 0

/-- The per-topic body of the lag loop: a failed partition enumeration
makes the whole topic contribute 0. -/
def topicLagContribution (env : LagEnv) (topic : String) (blocks : List (Int × Int)) : Int :=
  match env.partitionsOf topic with
  | none => 0
  | some partitions =>
    (blocks.map (fun b => partitionLagContribution env topic partitions b.1 b.2)).sum

/-- `calculateConsumerLag` (pkg/kafka): 0 when the committed-offset fetch
or the metadata consumer creation fails, otherwise the sum of the
per-topic contributions. -/
def calculateConsumerLag (env : LagEnv) : Int :=
  match env.offsetsRes with
  | none => 0
  | some offsetBlocks =>
    if env.newConsumerOk then
      (offsetBlocks.map (fun tb => topicLagContribution env tb.1 tb.2)).sum
    else 0

/-- The specification's per-pair lag: `max(0, highWaterMark -
committedOffset)`, with 0 for an absent partition, a failed high-water
fetch, or a negative committed offset.  Stated from the spec's words, to
be compared with the source-derived `calculateConsumerLag`. -/
def specPairLag (env : LagEnv) (topic : String) (partitionID committedOffset : Int) : Int :=
  match env.partitionsOf topic with
  | none => 0
  | some partitions =>
    if partitionID ∈ partitions then
      match env.highWaterMark topic partitionID with
      | none => 0
      | some hwm => if committedOffset < 0 then 0 else max 0 (hwm - committedOffset)
    else 0

/-! ## Multi-partition consumption (`ConsumeMessages`, pkg/kafka) -/

/-- A message as delivered on the shared channel (`Message` in
pkg/kafka). -/
structure Message where
  topic : String
  partition : Int
  offset : Int
  key : String
  value : String
  timestamp : Int
  headers : List (String × String)
  deriving Repr, DecidableEq

/-- Cursor lifecycle events recorded against the cluster driver: closing
one partition's cursor, or closing the root consumer. -/
inductive CloseEv where
  | closeCursor (partition : Int)
  | closeConsumer
  deriving Repr, DecidableEq

/-- Oracle responses for one `ConsumeMessages` call: whether
`sarama.NewConsumer` succeeds, the partition enumeration result, and
whether each partition's `ConsumePartition` open succeeds. -/
structure ConsumeEnv where
  newConsumerOk : Bool
  partitionsRes : Option (List Int)
  openCursorOk : Int → Bool

/-- One observed outcome of the `select` in a partition task's loop:
the cancellation token fired, the partition stream closed, a message
arrived (with `sendOk` false when cancellation fired while blocked on
the channel send), or a partition error arrived (same `sendOk`
convention for the sentinel send). -/
inductive PEvent where
  | ctxDone
  | chanClosed
  | msgEv (m : Message) (sendOk : Bool)
  | errEv (e : String) (sendOk : Bool)

/-- The sentinel delivered in-band for a partition error:
`Message{Topic: topic, Value: "Error: ..."}` with every other field left
at its zero value. -/
def sentinelMessage (topic e : String) : Message :=
  { topic := topic, partition := 0, offset := 0, key := "",
    value := "Error: " ++ e, timestamp := 0, headers := [] }

/-- One partition task's streaming loop over its observed events: the
messages it sends to the shared channel.  The task returns (sending
nothing further) on cancellation, on a closed stream, or when
cancellation fires during a blocked send. -/
def partitionTask (topic : String) : List PEvent → List Message
  | [] => []
  | PEvent.ctxDone :: _ => []
  | PEvent.chanClosed :: _ => []
  | PEvent.msgEv m sendOk :: rest =>
    if sendOk then m :: partitionTask topic rest else []
  | PEvent.errEv e sendOk :: rest =>
    if sendOk then sentinelMessage topic e :: partitionTask topic rest else []

/-- The cursor-open loop of `ConsumeMessages`: open each partition in
order, spawning its streaming goroutine as soon as its cursor opens; the
loop stops at the first failed open.  Returns whether every open
succeeded, together with the partitions opened so far in open order — on
failure these are exactly the partitions whose tasks are already
streaming and whose cursors the cleanup must close. -/
def openLoop (env : ConsumeEnv) (opened : List Int) :
    List Int → Bool × List Int
  | [] => (true, opened.reverse)
  | p :: rest =>
    if env.openCursorOk p then openLoop env (p :: opened) rest
    else (false, opened.reverse)

/-- `ConsumeMessages` (pkg/kafka) over oracle responses and per-partition
event traces: the result surfaced to the caller, the cursor lifecycle
events in order, and per partition the messages its task delivered to
the shared channel (cross-partition interleaving on the channel is
unordered and therefore not represented).  Because each partition's
goroutine starts streaming as soon as its own cursor opens, a later open
failure still carries the deliveries of the already-opened partitions:
their tasks run until their cursors are closed, and whatever they sent
to the shared channel is there regardless of the surfaced error. -/
def consumeMessages (env : ConsumeEnv) (topic : String) (traces : Int → List PEvent) :
    Except String Unit × List CloseEv × List (Int × List Message) :=
  if ¬env.newConsumerOk then (Except.error "failed to create consumer", [], [])
  else
    match env.partitionsRes with
    | none => (Except.error "failed to get partitions", [CloseEv.closeConsumer], [])
    | some partitions =>
      match openLoop env [] partitions with
      | (false, opened) =>
        (Except.error "failed to consume partition",
         opened.map CloseEv.closeCursor ++ [CloseEv.closeConsumer],
         opened.map (fun p => (p, partitionTask topic (traces p))))
      | (true, opened) =>
        (Except.ok (),
         opened.map CloseEv.closeCursor ++ [CloseEv.closeConsumer],
         opened.map (fun p => (p, partitionTask topic (traces p))))

/-! ## Start-offset selection (pkg/ui/consumer.go) and offset-parameterised open -/

/-- `sarama.OffsetOldest`. -/
def saramaOffsetOldest : Int := -2

/-- `sarama.OffsetNewest`. -/
def saramaOffsetNewest : Int := -1

/-- The consumer dialog's start-offset policy: the three options of the
offset dialog in pkg/ui/consumer.go, with `specific` carrying the parsed
literal offset. -/
inductive StartOffsetPolicy where
  | oldest
  | newest
  | specific (offset : Int)
  deriving Repr, DecidableEq

/-- The `enter` branch of the offset dialog: the `startOffset` value the
UI passes to the consume call for each policy. -/
def StartOffsetPolicy.value : StartOffsetPolicy → Int
  | .oldest => saramaOffsetOldest
  | .newest => saramaOffsetNewest
  | .specific offset => offset

/-- A cursor open issued to the cluster driver:
`ConsumePartition(topic, partition, offset)`. -/
structure OpenEv where
  topic : String
  partition : Int
  offset : Int
  deriving Repr, DecidableEq

/-- Modelled from the spec: `ConsumeMessagesWithOffset` — the body called
by pkg/ui/consumer.go is not part of the sources here, only its caller
is.  Per the spec it runs the `ConsumeMessages` open loop with the
caller's start offset in place of `sarama.OffsetOldest`, applying the
same literal offset independently to every partition of the topic; this
is the open-attempt trace of that loop (stopping at the first failed
open). -/
def openAttemptsWithOffset (env : ConsumeEnv) (topic : String) (offset : Int) :
    List Int → List OpenEv
  | [] => []
  | p :: rest =>
    ⟨topic, p, offset⟩ ::
      (if env.openCursorOk p then openAttemptsWithOffset env topic offset rest else [])

/-- Modelled from the spec: the cursor opens issued by one
`ConsumeMessagesWithOffset` call (empty when partition enumeration or
consumer creation fails before any open). -/
def consumeOpensWithOffset (env : ConsumeEnv) (topic : String) (offset : Int) : List OpenEv :=
  if ¬env.newConsumerOk then []
  else
    match env.partitionsRes with
    | none => []
    | some partitions => openAttemptsWithOffset env topic offset partitions

/-! ## Topic snapshot cache (`GetTopicDetails`, pkg/kafka) -/

/-- `topicCacheDuration = 1 * time.Minute`, in seconds. -/
def topicCacheDurationSecs : Nat := 60

/-- The client's cached topic state: the `topics` slice and the
`topicsLastFetched` timestamp (seconds; the Go zero `time.Time` is 0).
Faithful to the source, no code path ever assigns `topicsLastFetched`. -/
structure ClientCacheState where
  topics : List TopicInfo
  topicsLastFetched : Nat
  deriving Repr, DecidableEq

/-- A fresh client (`NewClient`): empty cache, zero timestamp. -/
def initialCacheState : ClientCacheState := ⟨[], 0⟩

/-- `sort.Slice(topicInfos, ...Name < ...Name)`: ascending by name. -/
def sortTopicsByName (l : List TopicInfo) : List TopicInfo :=
  l.mergeSort (fun a b => a.name ≤ b.name)

/-- `GetTopicDetails` (pkg/kafka): serve the cached list when
`topicsLastFetched + topicCacheDuration` is after now and the cache is
non-empty; otherwise query `admin.ListTopics` (oracle `listRes`), sort
ascending by name and cache the result.  The returned flag records
whether the cluster was queried.  As in the source, the fetch timestamp
is left untouched. -/
def getTopicDetails (listRes : Option (List TopicInfo)) (now : Nat) (st : ClientCacheState) :
    Option (List TopicInfo) × ClientCacheState × Bool :=
  if st.topicsLastFetched + topicCacheDurationSecs > now ∧ st.topics ≠ [] then
    (some st.topics, st, false)
  else
    match listRes with
    | none => (none, st, true)
    | some metadata =>
      let topicInfos := sortTopicsByName metadata
      (some topicInfos, { st with topics := topicInfos }, true)

/-! ## Concrete environments used by witnesses and counterexamples -/

/-- A topic metadata snapshot with a single topic. -/
def c10Metadata : List TopicInfo := [⟨"events", 3, 1⟩]

/-- A lag environment whose committed-offset fetch fails. -/
def lagEnvOffsetsFail : LagEnv :=
  { offsetsRes := none, newConsumerOk := true,
    partitionsOf := fun _ => none, highWaterMark := fun _ _ => none }

/-- A lag environment whose metadata consumer creation fails. -/
def lagEnvConsumerFail : LagEnv :=
  { offsetsRes := some [("t", [(0, 5)])], newConsumerOk := false,
    partitionsOf := fun _ => some [0], highWaterMark := fun _ _ => some 10 }

/-- A lag environment with a single committed partition: committed offset
3, high-water mark 10. -/
def lagEnvSingle : LagEnv :=
  { offsetsRes := some [("orders", [(0, 3)])], newConsumerOk := true,
    partitionsOf := fun _ => some [0], highWaterMark := fun _ _ => some 10 }

/-! ## Arithmetic of the per-partition lag -/

lemma lagArith (h c : Int) :
    (if h > 0 ∧ c ≥ 0 then (if h - c > 0 then h - c else 0) else 0)
      = (if c < 0 then 0 else max 0 (h - c)) := by
  rw [max_def]
  split_ifs <;> omega

lemma partitionLag_eq_spec (env : LagEnv) (t : String) (parts : List Int)
    (pid c : Int) (hp : env.partitionsOf t = some parts) :
    partitionLagContribution env t parts pid c = specPairLag env t pid c := by
  unfold partitionLagContribution specPairLag
  rw [hp]
  by_cases hmem : pid ∈ parts
  · simp only [if_pos hmem]
    cases env.highWaterMark t pid with
    | none => rfl
    | some hwm => exact lagArith hwm c
  · simp only [if_neg hmem]

lemma sum_map_zero {α : Type} (l : List α) : (l.map (fun _ => (0 : Int))).sum = 0 := by
  induction l with
  | nil => rfl
  | cons x xs ih => simp [ih]

lemma topicLag_eq_spec (env : LagEnv) (t : String) (blocks : List (Int × Int)) :
    topicLagContribution env t blocks
      = (blocks.map (fun b => specPairLag env t b.1 b.2)).sum := by
  unfold topicLagContribution
  cases hp : env.partitionsOf t with
  | none =>
    have : ∀ b : Int × Int, specPairLag env t b.1 b.2 = 0 := by
      intro b; unfold specPairLag; rw [hp]
    simp only [this]
    exact (sum_map_zero blocks).symm
  | some parts =>
    exact congrArg List.sum (List.map_congr_left
      (fun (b : Int × Int) _ => partitionLag_eq_spec env t parts b.1 b.2 hp))

/-- C2: for every lag environment whose group-level metadata queries
succeed, the computed total lag is the sum over all committed
`(topic, partition)` pairs of `max(0, highWaterMark - committedOffset)`,
with an absent partition, a failed high-water-mark fetch, or a negative
committed offset contributing 0; and for a single committed partition
with committed offset `c ≥ 0` and high-water mark `h > c`, the result is
`h - c`. -/
theorem calculateConsumerLag_sum_spec :
    (∀ (env : LagEnv) (blocks : List (String × List (Int × Int))),
       env.offsetsRes = some blocks → env.newConsumerOk = true →
       calculateConsumerLag env
         = (blocks.map (fun (tb : String × List (Int × Int)) =>
             (tb.2.map (fun (b : Int × Int) => specPairLag env tb.1 b.1 b.2)).sum)).sum)
    ∧ (∀ (env : LagEnv) (t : String) (pid c h : Int),
       env.offsetsRes = some [(t, [(pid, c)])] → env.newConsumerOk = true →
       env.partitionsOf t = some [pid] → env.highWaterMark t pid = some h →
       0 ≤ c → c < h →
       calculateConsumerLag env = h - c) := by
  constructor
  · intro env blocks hoff hok
    unfold calculateConsumerLag
    simp only [hoff, hok, if_true]
    congr 1
    exact List.map_congr_left (fun tb _ => topicLag_eq_spec env tb.1 tb.2)
  · intro env t pid c h hoff hok hp hh hc hch
    unfold calculateConsumerLag
    simp only [hoff, hok, if_true]
    simp only [List.map_cons, List.map_nil, List.sum_cons, List.sum_nil]
    unfold topicLagContribution
    rw [hp]
    simp only [List.map_cons, List.map_nil, List.sum_cons, List.sum_nil]
    unfold partitionLagContribution
    rw [hh]
    simp only [List.mem_singleton, if_pos rfl]
    have hcond : h > 0 ∧ c ≥ 0 := ⟨by omega, by omega⟩
    rw [if_pos hcond, if_pos (by omega : h - c > 0)]
    simp

/-- Witness for C2: the single-partition environment with committed
offset 3 and high-water mark 10 yields lag 7. -/
theorem calculateConsumerLag_sum_spec_witness :
    calculateConsumerLag lagEnvSingle = 7 := by
  have h := calculateConsumerLag_sum_spec.2 lagEnvSingle "orders" 0 3 10
    rfl rfl rfl rfl (by norm_num) (by norm_num)
  simpa using h

/-- Counterexample to C3: when the committed-offset fetch fails,
`calculateConsumerLag` does not fail — it returns the lag value 0 (its
return type is a bare integer; there is no error channel at all). -/
theorem calculateConsumerLag_metadata_failure_returns_value :
    calculateConsumerLag lagEnvOffsetsFail = 0 := rfl

/-- C3 (amended): `calculateConsumerLag` returns 0 when its metadata
queries fail — a failed committed-offset fetch or a failed metadata
consumer creation yields the lag value 0 rather than an error. -/
theorem calculateConsumerLag_degrades_to_zero :
    ∀ env : LagEnv, env.offsetsRes = none ∨ env.newConsumerOk = false →
      calculateConsumerLag env = 0 := by
  intro env h
  unfold calculateConsumerLag
  rcases h with h | h
  · rw [h]
  · cases ho : env.offsetsRes with
    | none => rfl
    | some blocks => rw [h]; simp

/-- Witness for C3 (amended): a failed metadata consumer creation yields
lag 0. -/
theorem calculateConsumerLag_degrades_to_zero_witness :
    calculateConsumerLag lagEnvConsumerFail = 0 :=
  calculateConsumerLag_degrades_to_zero lagEnvConsumerFail (Or.inr rfl)

/-- C10: the topic cache never serves a fresh hit.  Starting from a new
client, a successful `GetTopicDetails` call at t = 1000 s queries the
cluster and fills the cache, yet a second call one second later — with
the cached list non-empty and the previous successful fetch well under
one minute old — queries the cluster again (flag `true`), because no
code path ever assigns `topicsLastFetched`. -/
theorem getTopicDetails_requeries_within_one_minute :
    getTopicDetails (some c10Metadata) 1000 initialCacheState
      = (some c10Metadata, ⟨c10Metadata, 0⟩, true)
    ∧ getTopicDetails (some c10Metadata) 1001 ⟨c10Metadata, 0⟩
      = (some c10Metadata, ⟨c10Metadata, 0⟩, true) := by
  constructor <;>
    simp [getTopicDetails, initialCacheState, c10Metadata, sortTopicsByName,
      topicCacheDurationSecs]

/-! ## C9: start-offset policy applied uniformly -/

/-- A consume environment with two partitions, all opens succeeding. -/
def consumeEnvAllOk : ConsumeEnv :=
  { newConsumerOk := true, partitionsRes := some [0, 1], openCursorOk := fun _ => true }

/-- A consume environment with three partitions where opening partition 2
fails. -/
def consumeEnvFailAt2 : ConsumeEnv :=
  { newConsumerOk := true, partitionsRes := some [0, 1, 2],
    openCursorOk := fun p => p ≠ 2 }

lemma openAttempts_uniform (env : ConsumeEnv) (topic : String) (offset : Int) :
    ∀ (partitions : List Int) (ev : OpenEv),
      ev ∈ openAttemptsWithOffset env topic offset partitions →
      ev.offset = offset ∧ ev.topic = topic := by
  intro partitions
  induction partitions with
  | nil => intro ev h; simp [openAttemptsWithOffset] at h
  | cons p rest ih =>
    intro ev h
    simp only [openAttemptsWithOffset, List.mem_cons] at h
    rcases h with h | h
    · subst h; exact ⟨rfl, rfl⟩
    · by_cases hp : env.openCursorOk p
      · rw [if_pos hp] at h; exact ih ev h
      · rw [if_neg hp] at h; simp at h

lemma openAttempts_all_ok (env : ConsumeEnv) (topic : String) (offset : Int) :
    ∀ partitions : List Int, (∀ p ∈ partitions, env.openCursorOk p = true) →
      openAttemptsWithOffset env topic offset partitions
        = partitions.map (fun p => ⟨topic, p, offset⟩) := by
  intro partitions
  induction partitions with
  | nil => intro _; rfl
  | cons p rest ih =>
    intro hok
    have hp : env.openCursorOk p = true := hok p (List.mem_cons_self p rest)
    simp only [openAttemptsWithOffset, hp, if_true, List.map_cons]
    rw [ih (fun q hq => hok q (List.mem_cons_of_mem p hq))]

/-- C9: the consume call driven by the offset dialog applies each
start-offset policy's single literal value — `sarama.OffsetOldest` for
Oldest, `sarama.OffsetNewest` for Newest, the parsed literal for
Specific — identically to every partition cursor it opens: every cursor
open carries exactly that value, and when all opens succeed there is
exactly one open per enumerated partition, all with the same literal
offset. -/
theorem consumeOpens_uniform_offset :
    (∀ (env : ConsumeEnv) (topic : String) (pol : StartOffsetPolicy) (ev : OpenEv),
       ev ∈ consumeOpensWithOffset env topic pol.value →
       ev.offset = pol.value ∧ ev.topic = topic)
    ∧ (∀ (env : ConsumeEnv) (topic : String) (pol : StartOffsetPolicy)
         (partitions : List Int),
       env.newConsumerOk = true →
       env.partitionsRes = some partitions →
       (∀ p ∈ partitions, env.openCursorOk p = true) →
       consumeOpensWithOffset env topic pol.value
         = partitions.map (fun p => ⟨topic, p, pol.value⟩)) := by
  constructor
  · intro env topic pol ev h
    by_cases hc : env.newConsumerOk = true
    · cases hp : env.partitionsRes with
      | none => simp [consumeOpensWithOffset, hc, hp] at h
      | some partitions =>
        have hrw : consumeOpensWithOffset env topic pol.value
            = openAttemptsWithOffset env topic pol.value partitions := by
          simp [consumeOpensWithOffset, hc, hp]
        rw [hrw] at h
        exact openAttempts_uniform env topic pol.value partitions ev h
    · simp [consumeOpensWithOffset, hc] at h
  · intro env topic pol partitions hc hp hok
    have hrw : consumeOpensWithOffset env topic pol.value
        = openAttemptsWithOffset env topic pol.value partitions := by
      simp [consumeOpensWithOffset, hc, hp]
    rw [hrw]
    exact openAttempts_all_ok env topic pol.value partitions hok

/-- Witness for C9: with two partitions and the Specific(5) policy, the
opens are exactly one per partition, each at literal offset 5. -/
theorem consumeOpens_uniform_offset_witness :
    consumeOpensWithOffset consumeEnvAllOk "events" (StartOffsetPolicy.specific 5).value
      = [⟨"events", 0, 5⟩, ⟨"events", 1, 5⟩] := by
  have h := consumeOpens_uniform_offset.2 consumeEnvAllOk "events"
    (StartOffsetPolicy.specific 5) [0, 1] rfl rfl (fun p _ => rfl)
  simpa using h

/-! ## C6 and C7: open-time failure handling, streaming, cancellation -/

lemma openLoop_all_ok (env : ConsumeEnv) :
    ∀ (l acc : List Int), (∀ p ∈ l, env.openCursorOk p = true) →
      openLoop env acc l = (true, acc.reverse ++ l) := by
  intro l
  induction l with
  | nil => intro acc _; simp [openLoop]
  | cons p rest ih =>
    intro acc hok
    have hp : env.openCursorOk p = true := hok p (List.mem_cons_self p rest)
    simp only [openLoop, hp, if_true]
    rw [ih (p :: acc) (fun q hq => hok q (List.mem_cons_of_mem p hq))]
    simp

lemma openLoop_fail (env : ConsumeEnv) (p : Int) (post : List Int)
    (hfail : env.openCursorOk p = false) :
    ∀ (pre acc : List Int), (∀ q ∈ pre, env.openCursorOk q = true) →
      openLoop env acc (pre ++ p :: post) = (false, acc.reverse ++ pre) := by
  intro pre
  induction pre with
  | nil =>
    intro acc _
    simp [openLoop, hfail]
  | cons q pre' ih =>
    intro acc hok
    have hq : env.openCursorOk q = true := hok q (List.mem_cons_self q pre')
    simp only [List.cons_append, openLoop, hq, if_true, List.append_eq]
    rw [ih (q :: acc) (fun r hr => hok r (List.mem_cons_of_mem q hr))]
    simp

lemma consumeMessages_all_open (env : ConsumeEnv) (topic : String)
    (traces : Int → List PEvent) (partitions : List Int)
    (hc : env.newConsumerOk = true) (hp : env.partitionsRes = some partitions)
    (hok : ∀ p ∈ partitions, env.openCursorOk p = true) :
    consumeMessages env topic traces
      = (Except.ok (), partitions.map CloseEv.closeCursor ++ [CloseEv.closeConsumer],
         partitions.map (fun p => (p, partitionTask topic (traces p)))) := by
  have hopen : openLoop env [] partitions = (true, partitions) := by
    have h := openLoop_all_ok env partitions [] hok
    simpa using h
  simp [consumeMessages, hc, hp, hopen]

lemma consumeMessages_open_fail (env : ConsumeEnv) (topic : String)
    (traces : Int → List PEvent) (pre : List Int) (p : Int) (post : List Int)
    (hc : env.newConsumerOk = true) (hp : env.partitionsRes = some (pre ++ p :: post))
    (hok : ∀ q ∈ pre, env.openCursorOk q = true) (hfail : env.openCursorOk p = false) :
    consumeMessages env topic traces
      = (Except.error "failed to consume partition",
         pre.map CloseEv.closeCursor ++ [CloseEv.closeConsumer],
         pre.map (fun q => (q, partitionTask topic (traces q)))) := by
  have hopen : openLoop env [] (pre ++ p :: post) = (false, pre) := by
    have h := openLoop_fail env p post hfail pre [] hok
    simpa using h
  simp [consumeMessages, hc, hp, hopen]

/-- A message delivered by partition 0 before partition 2 fails to
open. -/
def earlyMessage : Message :=
  { topic := "t", partition := 0, offset := 0, key := "k", value := "v",
    timestamp := 0, headers := [] }

/-- Event traces in which partition 0 delivers one message and then its
stream closes, while every other partition's stream closes at once. -/
def tracesDeliverOne : Int → List PEvent := fun p =>
  if p = 0 then [PEvent.msgEv earlyMessage true, PEvent.chanClosed]
  else [PEvent.chanClosed]

/-- Counterexample to C6: an open-time failure is not guaranteed to
precede all delivery.  With three partitions where partition 2 fails to
open, the tasks for partitions 0 and 1 are already streaming while the
open loop proceeds, so a message from partition 0 reaches the shared
channel even though the call surfaces the open error — refuting
"fails ... before any message is delivered". -/
theorem consumeMessages_delivery_before_open_error :
    (consumeMessages consumeEnvFailAt2 "t" tracesDeliverOne).1
        = Except.error "failed to consume partition"
    ∧ (consumeMessages consumeEnvFailAt2 "t" tracesDeliverOne).2.2
        = [(0, [earlyMessage]), (1, [])] := by
  constructor <;> rfl

/-- C6 (amended): the multi-partition consume fails only at open time —
consumer creation, partition enumeration, or a partition cursor failing
to open; a consumer-creation or enumeration failure precedes any task
and delivers nothing, but when the cursor for partition k fails to open,
the tasks for the already-opened partitions before k are already
streaming, so their messages may reach the output channel before the
error is surfaced; every already-opened cursor is still closed (in open
order, then the root consumer) before the error is surfaced, leaving no
partial leak; once every partition is streaming the call never surfaces
an error, and a partition error is delivered in-band as a sentinel
message on the shared channel. -/
theorem consumeMessages_open_failure_semantics :
    (∀ (env : ConsumeEnv) (topic : String) (traces : Int → List PEvent)
       (pre : List Int) (p : Int) (post : List Int),
       env.newConsumerOk = true →
       env.partitionsRes = some (pre ++ p :: post) →
       (∀ q ∈ pre, env.openCursorOk q = true) →
       env.openCursorOk p = false →
       consumeMessages env topic traces
         = (Except.error "failed to consume partition",
            pre.map CloseEv.closeCursor ++ [CloseEv.closeConsumer],
            pre.map (fun q => (q, partitionTask topic (traces q)))))
    ∧ (∀ (env : ConsumeEnv) (topic : String) (traces : Int → List PEvent),
       env.newConsumerOk = false →
       consumeMessages env topic traces
         = (Except.error "failed to create consumer", [], []))
    ∧ (∀ (env : ConsumeEnv) (topic : String) (traces : Int → List PEvent),
       env.newConsumerOk = true → env.partitionsRes = none →
       consumeMessages env topic traces
         = (Except.error "failed to get partitions", [CloseEv.closeConsumer], []))
    ∧ (∀ (env : ConsumeEnv) (topic : String) (traces : Int → List PEvent)
         (partitions : List Int),
       env.newConsumerOk = true →
       env.partitionsRes = some partitions →
       (∀ p ∈ partitions, env.openCursorOk p = true) →
       (consumeMessages env topic traces).1 = Except.ok ())
    ∧ (∀ (topic e : String) (rest : List PEvent),
       partitionTask topic (PEvent.errEv e true :: rest)
         = sentinelMessage topic e :: partitionTask topic rest) := by
  refine ⟨?_, ?_, ?_, ?_, ?_⟩
  · intro env topic traces pre p post hc hp hok hfail
    exact consumeMessages_open_fail env topic traces pre p post hc hp hok hfail
  · intro env topic traces hc
    simp [consumeMessages, hc]
  · intro env topic traces hc hp
    simp [consumeMessages, hc, hp]
  · intro env topic traces partitions hc hp hok
    rw [consumeMessages_all_open env topic traces partitions hc hp hok]
  · intro topic e rest
    simp [partitionTask]

/-- Witness for C6 (amended): with three partitions and partition 2
failing to open, the call errors after closing the two already-opened
cursors and the consumer, while partition 0's already-streaming task has
delivered its message; and a task facing an error event emits the
sentinel. -/
theorem consumeMessages_open_failure_semantics_witness :
    consumeMessages consumeEnvFailAt2 "t" tracesDeliverOne
      = (Except.error "failed to consume partition",
         [CloseEv.closeCursor 0, CloseEv.closeCursor 1, CloseEv.closeConsumer],
         [(0, [earlyMessage]), (1, [])])
    ∧ partitionTask "t" [PEvent.errEv "boom" true]
      = [sentinelMessage "t" "boom"] := by
  constructor
  · have h := consumeMessages_open_failure_semantics.1 consumeEnvFailAt2 "t"
      tracesDeliverOne [0, 1] 2 [] rfl rfl (by decide) (by decide)
    exact h.trans rfl
  · have h := consumeMessages_open_failure_semantics.2.2.2.2 "t" "boom" []
    simpa using h

lemma countCursor_map (l : List Int) :
    ((l.map CloseEv.closeCursor).countP
        (fun ev => match ev with | CloseEv.closeCursor _ => true | _ => false))
      = l.length := by
  induction l with
  | nil => rfl
  | cons p rest ih => simp [List.countP_cons, ih]

/-- C7: once consumption of a topic with N partitions has started, every
cancellation outcome releases all N partition cursors (the close trace is
exactly one cursor close per partition, then the consumer close) before
the call returns — for every event assignment, including cancellation
before any message arrives — and a partition task stops within one
receive/send cycle of the cancellation signal: a token observed at the
top of the loop, or during a blocked message or sentinel send, ends the
task with no further delivery. -/
theorem consumeMessages_cancellation_closes_all :
    (∀ (env : ConsumeEnv) (topic : String) (traces : Int → List PEvent)
       (partitions : List Int),
       env.newConsumerOk = true →
       env.partitionsRes = some partitions →
       (∀ p ∈ partitions, env.openCursorOk p = true) →
       (consumeMessages env topic traces).2.1
         = partitions.map CloseEv.closeCursor ++ [CloseEv.closeConsumer]
       ∧ ((consumeMessages env topic traces).2.1.countP
            (fun ev => match ev with | CloseEv.closeCursor _ => true | _ => false))
           = partitions.length)
    ∧ (∀ (topic : String) (m : Message) (e : String) (rest : List PEvent),
       partitionTask topic (PEvent.ctxDone :: rest) = []
       ∧ partitionTask topic (PEvent.msgEv m false :: rest) = []
       ∧ partitionTask topic (PEvent.errEv e false :: rest) = []) := by
  constructor
  · intro env topic traces partitions hc hp hok
    rw [consumeMessages_all_open env topic traces partitions hc hp hok]
    refine ⟨rfl, ?_⟩
    simp only [List.countP_append]
    rw [countCursor_map]
    simp [List.countP_cons]
  · intro topic m e rest
    exact ⟨rfl, by simp [partitionTask], by simp [partitionTask]⟩

/-- Witness for C7: two partitions, cancellation signalled before any
message: both cursors and the consumer are closed, the cursor-close count
is 2, and a task whose first observation is the cancellation token emits
nothing. -/
theorem consumeMessages_cancellation_witness :
    (consumeMessages consumeEnvAllOk "t" (fun _ => [PEvent.ctxDone])).2.1
      = [CloseEv.closeCursor 0, CloseEv.closeCursor 1, CloseEv.closeConsumer]
    ∧ partitionTask "t" [PEvent.ctxDone] = [] := by
  constructor
  · have h := consumeMessages_cancellation_closes_all.1 consumeEnvAllOk "t"
      (fun _ => [PEvent.ctxDone]) [0, 1] rfl rfl (fun p _ => rfl)
    simpa using h.1
  · exact (consumeMessages_cancellation_closes_all.2 "t"
      (sentinelMessage "t" "x") "x" []).1

/-! ## C8: increase-only partition modification -/

/-- A cluster environment with two topics (3 and 8 partitions) in which
every mutation RPC succeeds except `CreatePartitions` on topic `flaky`,
which fails. -/
def clusterEnvC8 : ClusterEnv :=
  { listTopicsRes := some [⟨"small", 3, 1⟩, ⟨"big", 8, 1⟩, ⟨"flaky", 2, 1⟩],
    createTopicRes := fun _ _ _ => none,
    alterConfigRes := fun _ _ _ => none,
    createPartitionsRes := fun t _ => if t = "flaky" then some "boom" else none,
    deleteTopicRes := fun _ => none,
    topicDetailsRes := some [⟨"small", 3, 1⟩, ⟨"big", 8, 1⟩, ⟨"flaky", 2, 1⟩],
    consumerGroupsRes := some [],
    topicConfigRes := fun _ => none }

lemma modifyTopicPartitions_reject_no_op (env : ClusterEnv) (topicName : String)
    (numPartitions : Int) (md : List TopicInfo)
    (hmd : env.listTopicsRes = some md)
    (hfind : ∀ meta, md.find? (fun t => t.name == topicName) = some meta →
       numPartitions ≤ meta.partitions) :
    (modifyTopicPartitionsClient env topicName numPartitions).1.isSome = true
    ∧ ∀ (t : String) (n : Int),
        ClusterOp.createPartitionsOp t n ∉ (modifyTopicPartitionsClient env topicName numPartitions).2 := by
  unfold modifyTopicPartitionsClient
  by_cases h1 : topicName = ""
  · simp [h1]
  · rw [if_neg h1]
    by_cases h2 : numPartitions < 1
    · simp [h2]
    · rw [if_neg h2, hmd]
      cases hf : md.find? (fun t => t.name == topicName) with
      | none => simp [hf]
      | some meta =>
        have hle := hfind meta hf
        simp [hf, hle]

/-- C8: `modify_partitions` is increase-only — with topic metadata
available, a target at or below the topic's current partition count, and
likewise an unknown topic, produce an error and never issue a
`CreatePartitions` RPC (the topic is left unchanged); and
`modify_all_partitions` with target N attempts exactly the snapshot
topics whose current count is below N (in snapshot order), records a
failure entry exactly for each attempted topic whose client call fails
and a success entry exactly for each that succeeds — topics already at
or above N appear in neither list, and one topic's failure never stops
the iteration. -/
theorem modifyPartitions_increase_only :
    (∀ (env : ClusterEnv) (topicName : String) (numPartitions : Int)
       (md : List TopicInfo) (meta : TopicInfo),
       env.listTopicsRes = some md →
       md.find? (fun t => t.name == topicName) = some meta →
       numPartitions ≤ meta.partitions →
       (modifyTopicPartitionsClient env topicName numPartitions).1.isSome = true
       ∧ ∀ (t : String) (n : Int),
           ClusterOp.createPartitionsOp t n
             ∉ (modifyTopicPartitionsClient env topicName numPartitions).2)
    ∧ (∀ (env : ClusterEnv) (topicName : String) (numPartitions : Int)
         (md : List TopicInfo),
       env.listTopicsRes = some md →
       md.find? (fun t => t.name == topicName) = none →
       (modifyTopicPartitionsClient env topicName numPartitions).1.isSome = true
       ∧ ∀ (t : String) (n : Int),
           ClusterOp.createPartitionsOp t n
             ∉ (modifyTopicPartitionsClient env topicName numPartitions).2)
    ∧ (∀ (env : ClusterEnv) (target : Int) (topics : List TopicInfo),
       (modifyAllPartitionsLoop env target topics).attempts
         = (topics.filter (fun t => t.partitions < target)).map (fun t => t.name)
       ∧ (modifyAllPartitionsLoop env target topics).failures
         = (topics.filter (fun t => t.partitions < target)).filterMap
             (fun t => ((modifyTopicPartitionsClient env t.name target).1).map
                (fun e => t.name ++ ": " ++ e))
       ∧ (modifyAllPartitionsLoop env target topics).successes
         = (topics.filter (fun t => t.partitions < target)).filterMap
             (fun t => if (modifyTopicPartitionsClient env t.name target).1 = none
                then some t.name else none)) := by
  refine ⟨?_, ?_, ?_⟩
  · intro env topicName numPartitions md meta hmd hfind hle
    exact modifyTopicPartitions_reject_no_op env topicName numPartitions md hmd
      (fun m hm => by rw [hfind] at hm; cases hm; exact hle)
  · intro env topicName numPartitions md hmd hfind
    exact modifyTopicPartitions_reject_no_op env topicName numPartitions md hmd
      (fun m hm => by rw [hfind] at hm; cases hm)
  · intro env target topics
    induction topics with
    | nil => exact ⟨rfl, rfl, rfl⟩
    | cons topic rest ih =>
      by_cases hlt : topic.partitions < target
      · cases hcall : modifyTopicPartitionsClient env topic.name target with
        | mk res ops =>
          cases res with
          | none =>
            simp only [modifyAllPartitionsLoop, hlt, if_pos hlt, hcall,
              List.filter_cons, List.map_cons, List.filterMap_cons]
            refine ⟨?_, ?_, ?_⟩ <;>
              simp [hlt, hcall, ih.1, ih.2.1, ih.2.2]
          | some e =>
            simp only [modifyAllPartitionsLoop, hlt, if_pos hlt, hcall,
              List.filter_cons, List.map_cons, List.filterMap_cons]
            refine ⟨?_, ?_, ?_⟩ <;>
              simp [hlt, hcall, ih.1, ih.2.1, ih.2.2]
      · simp only [modifyAllPartitionsLoop, if_neg hlt]
        refine ⟨?_, ?_, ?_⟩ <;>
          simp [hlt, ih.1, ih.2.1, ih.2.2]

/-- Witness for C8: with the snapshot `small`(3), `big`(8), `flaky`(2)
and target 5, a direct modify on `big` is rejected with no
`CreatePartitions` issued, and the all-topics pass attempts exactly
`small` and `flaky`, succeeding on `small`, failing on `flaky`, and
skipping `big` with no entry. -/
theorem modifyPartitions_increase_only_witness :
    ((modifyTopicPartitionsClient clusterEnvC8 "big" 5).1.isSome = true
     ∧ ClusterOp.createPartitionsOp "big" 5
         ∉ (modifyTopicPartitionsClient clusterEnvC8 "big" 5).2)
    ∧ (modifyAllPartitionsLoop clusterEnvC8 5
         [⟨"small", 3, 1⟩, ⟨"big", 8, 1⟩, ⟨"flaky", 2, 1⟩]).attempts
        = ["small", "flaky"]
    ∧ (modifyAllPartitionsLoop clusterEnvC8 5
         [⟨"small", 3, 1⟩, ⟨"big", 8, 1⟩, ⟨"flaky", 2, 1⟩]).successes
        = ["small"]
    ∧ (modifyAllPartitionsLoop clusterEnvC8 5
         [⟨"small", 3, 1⟩, ⟨"big", 8, 1⟩, ⟨"flaky", 2, 1⟩]).failures
        = ["flaky: failed to modify partitions: boom"] := by
  refine ⟨?_, ?_, ?_, ?_⟩
  · have h := modifyPartitions_increase_only.1 clusterEnvC8 "big" 5
      [⟨"small", 3, 1⟩, ⟨"big", 8, 1⟩, ⟨"flaky", 2, 1⟩] ⟨"big", 8, 1⟩
      rfl (by decide) (by decide)
    exact ⟨h.1, h.2 "big" 5⟩
  · have h := (modifyPartitions_increase_only.2.2 clusterEnvC8 5
      [⟨"small", 3, 1⟩, ⟨"big", 8, 1⟩, ⟨"flaky", 2, 1⟩]).1
    rw [h]; decide
  · have h := (modifyPartitions_increase_only.2.2 clusterEnvC8 5
      [⟨"small", 3, 1⟩, ⟨"big", 8, 1⟩, ⟨"flaky", 2, 1⟩]).2.2
    rw [h]; decide
  · have h := (modifyPartitions_increase_only.2.2 clusterEnvC8 5
      [⟨"small", 3, 1⟩, ⟨"big", 8, 1⟩, ⟨"flaky", 2, 1⟩]).2.1
    rw [h]; decide

/-! ## C1: batch execution order, partial failure, and skipping -/

/-- A cluster environment where every RPC succeeds and metadata is
empty. -/
def envSimple : ClusterEnv :=
  { listTopicsRes := some [], createTopicRes := fun _ _ _ => none,
    alterConfigRes := fun _ _ _ => none, createPartitionsRes := fun _ _ => none,
    deleteTopicRes := fun _ => none, topicDetailsRes := some [],
    consumerGroupsRes := some [], topicConfigRes := fun _ => none }

/-- A cluster environment in which creating topic `a` fails with
"already exists" and every other RPC succeeds. -/
def envFailFirst : ClusterEnv :=
  { envSimple with createTopicRes := fun name _ _ =>
      if name = "a" then some "already exists" else none }

/-- A parsed record whose `action` is not among the batch-recognized
kinds. -/
def cmdUnknownAction : JObj := [("action", JValue.str "unknown_kind")]

/-- A `modify_partitions` record missing its numeric `partitions`
field. -/
def cmdMissingParts : JObj :=
  [("action", JValue.str "modify_partitions"), ("topic", JValue.str "t")]

/-- A `create_topic` record for topic `a`. -/
def cmdCreateA : JObj := [("action", JValue.str "create_topic"), ("name", JValue.str "a")]

/-- A `create_topic` record for topic `b`. -/
def cmdCreateB : JObj := [("action", JValue.str "create_topic"), ("name", JValue.str "b")]

/-- Counterexample to C1: the batch result does not have one entry per
parsed record — a record with an unrecognized kind, and a
`modify_partitions` record missing its numeric partitions field, are
skipped outright (no Failure entry), leaving a batch of one record with
an empty result. -/
theorem executeMultipleCommands_skips_invalid :
    (executeMultipleCommands envSimple [cmdUnknownAction]).1.length = 0
    ∧ (executeMultipleCommands envSimple [cmdMissingParts]).1.length = 0
    ∧ ([cmdUnknownAction] : List JObj).length = 1 := by
  refine ⟨rfl, rfl, rfl⟩

lemma executeMultipleCommandsFrom_spec (env : ClusterEnv) :
    ∀ (commands : List JObj) (i : Nat),
      (executeMultipleCommandsFrom env i commands).1
        = (commands.enumFrom i).filterMap (fun p =>
            let r := (execBatchStep env p.2).1
            if r = "" then none else some s!"Step {p.1+1}: {r}") := by
  intro commands
  induction commands with
  | nil => intro i; rfl
  | cons command rest ih =>
    intro i
    simp only [executeMultipleCommandsFrom, List.enumFrom, List.filterMap_cons]
    rw [ih (i + 1)]
    cases hstep : execBatchStep env command with
    | mk result ops =>
      by_cases hr : result = "" <;> simp [hr]

/-- C1 (amended): the batch executor runs the parsed records strictly in
parse order and one record's failure never prevents the next record from
executing — the step log equals the in-order filterMap of per-record
outcomes, each outcome computed from its own record alone and labeled
with its original 1-based step index; but a structurally invalid record
(an action that is not a string, an action outside the batch-recognized
set, or a `modify_partitions` record without a positive numeric
partitions field) contributes no entry at all — it is skipped, not
recorded as a Failure, so the log can be shorter than the record
sequence. -/
theorem executeMultipleCommands_order_and_skip :
    (∀ (env : ClusterEnv) (commands : List JObj),
       (executeMultipleCommands env commands).1
         = commands.enum.filterMap (fun p =>
             let r := (execBatchStep env p.2).1
             if r = "" then none else some s!"Step {p.1+1}: {r}"))
    ∧ (∀ (env : ClusterEnv) (command : JObj) (a : String),
       (jlookup command "action").bind JValue.asString = some a →
       a ≠ "modify_partitions" → a ≠ "modify_config" → a ≠ "create_topic" →
       (execBatchStep env command).1 = "")
    ∧ (∀ (env : ClusterEnv) (command : JObj),
       (jlookup command "action").bind JValue.asString = some "modify_partitions" →
       getNum command "partitions" ≤ 0 →
       (execBatchStep env command).1 = "") := by
  refine ⟨?_, ?_, ?_⟩
  · intro env commands
    exact executeMultipleCommandsFrom_spec env commands 0
  · intro env command a ha h1 h2 h3
    unfold execBatchStep
    rw [ha]
    simp [h1, h2, h3]
  · intro env command ha hn
    unfold execBatchStep
    rw [ha]
    have hguard : ¬(getString command "topic" ≠ "" ∧ getNum command "partitions" > 0) := by
      intro hcond
      exact absurd hcond.2 (by omega)
    simp [hguard]

/-- Witness for C1 (amended): a two-step batch whose first create fails
with "already exists" still executes and logs both steps in order; and
the skip clauses apply to the unrecognized-kind and missing-partitions
records. -/
theorem executeMultipleCommands_order_and_skip_witness :
    (executeMultipleCommands envFailFirst [cmdCreateA, cmdCreateB]).1
      = ["Step 1: Failed to create topic a: failed to create topic: already exists",
         "Step 2: Successfully created topic b"]
    ∧ (execBatchStep envSimple cmdUnknownAction).1 = ""
    ∧ (execBatchStep envSimple cmdMissingParts).1 = "" := by
  refine ⟨?_, ?_, ?_⟩
  · rw [executeMultipleCommands_order_and_skip.1 envFailFirst [cmdCreateA, cmdCreateB]]
    rfl
  · exact executeMultipleCommands_order_and_skip.2.1 envSimple cmdUnknownAction
      "unknown_kind" rfl (by decide) (by decide) (by decide)
  · exact executeMultipleCommands_order_and_skip.2.2 envSimple cmdMissingParts
      rfl (by decide)

/-! ## C4: topic deletion is structurally inexpressible from the dispatch -/

lemma noDel_createTopic (env : ClusterEnv) (n : String) (p r : Int) (nm : String) :
    ClusterOp.deleteTopicOp nm ∉ (createTopicClient env n p r).2 := by
  by_cases h : n = ""
  · simp [createTopicClient, h]
  · cases hc : env.createTopicRes n (if p < 1 then 1 else p) (if r < 1 then 1 else r) <;>
      simp [createTopicClient, h, hc]

lemma noDel_updateConfig (env : ClusterEnv) (t k v nm : String) :
    ClusterOp.deleteTopicOp nm ∉ (updateTopicConfigClient env t k v).2 := by
  by_cases h : t = "" ∨ k = ""
  · simp [updateTopicConfigClient, h]
  · cases hc : env.alterConfigRes t k v <;> simp [updateTopicConfigClient, h, hc]

lemma noDel_modifyParts (env : ClusterEnv) (t : String) (n : Int) (nm : String) :
    ClusterOp.deleteTopicOp nm ∉ (modifyTopicPartitionsClient env t n).2 := by
  by_cases h1 : t = ""
  · simp [modifyTopicPartitionsClient, h1]
  · by_cases h2 : n < 1
    · simp [modifyTopicPartitionsClient, h1, h2]
    · cases hm : env.listTopicsRes with
      | none => simp [modifyTopicPartitionsClient, h1, h2, hm]
      | some md =>
        cases hf : md.find? (fun x => x.name == t) with
        | none => simp [modifyTopicPartitionsClient, h1, h2, hm, hf]
        | some meta =>
          by_cases h3 : n ≤ meta.partitions
          · simp [modifyTopicPartitionsClient, h1, h2, hm, hf, h3]
          · cases hc : env.createPartitionsRes t n <;>
              simp [modifyTopicPartitionsClient, h1, h2, hm, hf, h3, hc]

lemma noDel_applyConfigs (env : ClusterEnv) (topic : String) :
    ∀ (configs : List (String × JValue)) (nm : String),
      ClusterOp.deleteTopicOp nm ∉ (applyConfigsLoop env topic configs).2.2 := by
  intro configs
  induction configs with
  | nil => intro nm; simp [applyConfigsLoop]
  | cons kv rest ih =>
    intro nm
    obtain ⟨key, value⟩ := kv
    unfold applyConfigsLoop
    cases hv : value.asString with
    | none => simpa [hv] using ih nm
    | some strValue =>
      cases hcall : updateTopicConfigClient env topic key strValue with
      | mk res ops =>
        have hops : ClusterOp.deleteTopicOp nm ∉ ops := by
          have h := noDel_updateConfig env topic key strValue nm
          rw [hcall] at h
          exact h
        cases res <;> simp [hv, hcall, List.mem_append] <;>
          exact ⟨hops, ih nm⟩

lemma noDel_allParts (env : ClusterEnv) (target : Int) :
    ∀ (topics : List TopicInfo) (nm : String),
      ClusterOp.deleteTopicOp nm ∉ (modifyAllPartitionsLoop env target topics).ops := by
  intro topics
  induction topics with
  | nil => intro nm; simp [modifyAllPartitionsLoop]
  | cons topic rest ih =>
    intro nm
    unfold modifyAllPartitionsLoop
    by_cases hlt : topic.partitions < target
    · cases hcall : modifyTopicPartitionsClient env topic.name target with
      | mk res ops =>
        have hops : ClusterOp.deleteTopicOp nm ∉ ops := by
          have h := noDel_modifyParts env topic.name target nm
          rw [hcall] at h
          exact h
        cases res <;> simp [hlt, hcall, List.mem_append] <;>
          exact ⟨hops, ih nm⟩
    · simpa [hlt] using ih nm

lemma noDel_allConfigs (env : ClusterEnv) (configs : JObj) :
    ∀ (topics : List TopicInfo) (nm : String),
      ClusterOp.deleteTopicOp nm ∉ (modifyAllConfigsLoop env configs topics).2.2 := by
  intro topics
  induction topics with
  | nil => intro nm; simp [modifyAllConfigsLoop]
  | cons topic rest ih =>
    intro nm
    unfold modifyAllConfigsLoop
    simp only [List.mem_append]
    intro h
    rcases h with h | h
    · exact noDel_applyConfigs env topic.name configs nm h
    · exact ih nm h

lemma noDel_topicIncluded (env : ClusterEnv) (filter : Option JObj) (t : TopicInfo)
    (nm : String) :
    ClusterOp.deleteTopicOp nm ∉ (topicIncluded env filter t).2 := by
  unfold topicIncluded
  cases hc : (filter.bind (fun f => jlookup f "compression")).bind JValue.asString <;>
    simp [hc, getTopicConfigClient]

lemma noDel_filterTopics (env : ClusterEnv) (filter : Option JObj) :
    ∀ (topics : List TopicInfo) (nm : String),
      ClusterOp.deleteTopicOp nm ∉ (filterTopicsLoop env filter topics).2 := by
  intro topics
  induction topics with
  | nil => intro nm; simp [filterTopicsLoop]
  | cons t rest ih =>
    intro nm
    unfold filterTopicsLoop
    simp only [List.mem_append]
    intro h
    rcases h with h | h
    · exact noDel_topicIncluded env filter t nm h
    · exact ih nm h

lemma noDel_describeTopics (env : ClusterEnv) (hasCompression : Bool) :
    ∀ (topics : List TopicInfo) (nm : String),
      ClusterOp.deleteTopicOp nm ∉ (describeTopicsLoop env hasCompression topics).2 := by
  intro topics
  induction topics with
  | nil => intro nm; simp [describeTopicsLoop]
  | cons t rest ih =>
    intro nm
    unfold describeTopicsLoop
    cases hasCompression <;> simp [getTopicConfigClient, List.mem_append]
    · exact ih nm
    · exact ih nm

lemma noDel_execBatchStep (env : ClusterEnv) (command : JObj) (nm : String) :
    ClusterOp.deleteTopicOp nm ∉ (execBatchStep env command).2 := by
  unfold execBatchStep
  cases ha : (jlookup command "action").bind JValue.asString with
  | none => simp
  | some action =>
    dsimp only
    by_cases h1 : action = "modify_partitions"
    · subst h1; rw [if_pos rfl]
      split_ifs with hg
      · cases hcall : modifyTopicPartitionsClient env (getString command "topic")
            (getNum command "partitions") with
        | mk res ops =>
          have hops : ClusterOp.deleteTopicOp nm ∉ ops := by
            have h := noDel_modifyParts env (getString command "topic")
              (getNum command "partitions") nm
            rw [hcall] at h
            exact h
          cases res <;> exact hops
      · simp
    · rw [if_neg h1]
      by_cases h2 : action = "modify_config"
      · subst h2; rw [if_pos rfl]
        cases hc : getObj command "configs" with
        | none => simp
        | some configs =>
          dsimp only
          have hops := noDel_applyConfigs env (getString command "topic") configs nm
          split_ifs <;> first | exact hops | simp
      · rw [if_neg h2]
        by_cases h3 : action = "create_topic"
        · subst h3; rw [if_pos rfl]
          split_ifs with hg
          · cases hcall : createTopicClient env (getString command "name")
                (getNum command "partitions") (getNum command "replication_factor") with
            | mk res ops =>
              have hops : ClusterOp.deleteTopicOp nm ∉ ops := by
                have h := noDel_createTopic env (getString command "name")
                  (getNum command "partitions") (getNum command "replication_factor") nm
                rw [hcall] at h
                exact h
              cases res with
              | some e => exact hops
              | none =>
                cases hc : getObj command "configs" with
                | none => exact hops
                | some configs =>
                  have hops2 := noDel_applyConfigs env (getString command "name") configs nm
                  intro h
                  rcases List.mem_append.mp h with h | h
                  · exact hops h
                  · exact hops2 h
          · simp
        · rw [if_neg h3]
          simp

lemma noDel_batchFrom (env : ClusterEnv) :
    ∀ (commands : List JObj) (i : Nat) (nm : String),
      ClusterOp.deleteTopicOp nm ∉ (executeMultipleCommandsFrom env i commands).2 := by
  intro commands
  induction commands with
  | nil => intro i nm; simp [executeMultipleCommandsFrom]
  | cons command rest ih =>
    intro i nm
    unfold executeMultipleCommandsFrom
    cases hstep0 : execBatchStep env command with
    | mk result ops =>
      have hstep : ClusterOp.deleteTopicOp nm ∉ ops := by
        have h := noDel_execBatchStep env command nm
        rw [hstep0] at h
        exact h
      have htail := ih (i + 1) nm
      dsimp only
      by_cases hr : result = "" <;>
        [rw [if_pos hr]; rw [if_neg hr]] <;>
        exact fun h => (List.mem_append.mp h).elim (fun hh => hstep hh) (fun hh => htail hh)

lemma noDel_executeSingle (env : ClusterEnv) (command : JObj) (nm : String) :
    ClusterOp.deleteTopicOp nm ∉ (executeSingleCommand env command).2 := by
  unfold executeSingleCommand
  cases ha : (jlookup command "action").bind JValue.asString with
  | none => simp
  | some action =>
    dsimp only
    by_cases h1 : action = "create_topic"
    · subst h1; rw [if_pos rfl]
      split_ifs with hg
      · cases hcall : createTopicClient env (getString command "name")
            (getNum command "partitions") (getNum command "replication_factor") with
        | mk res ops =>
          have hops : ClusterOp.deleteTopicOp nm ∉ ops := by
            have h := noDel_createTopic env (getString command "name")
              (getNum command "partitions") (getNum command "replication_factor") nm
            rw [hcall] at h
            exact h
          cases res with
          | some e => exact hops
          | none =>
            cases hc : getObj command "configs" with
            | none => exact hops
            | some configs =>
              have hops2 := noDel_applyConfigs env (getString command "name") configs nm
              intro h
              rcases List.mem_append.mp h with h | h
              · exact hops h
              · exact hops2 h
      · simp
    · rw [if_neg h1]
      by_cases h2 : action = "modify_partitions"
      · subst h2; rw [if_pos rfl]
        split_ifs with hg
        · cases hcall : modifyTopicPartitionsClient env (getString command "topic")
              (getNum command "partitions") with
          | mk res ops =>
            have hops : ClusterOp.deleteTopicOp nm ∉ ops := by
              have h := noDel_modifyParts env (getString command "topic")
                (getNum command "partitions") nm
              rw [hcall] at h
              exact h
            cases res <;> exact hops
        · simp
      · rw [if_neg h2]
        by_cases h3 : action = "modify_config"
        · subst h3; rw [if_pos rfl]
          cases hc : getObj command "configs" with
          | none => simp
          | some configs =>
            dsimp only
            have hops := noDel_applyConfigs env (getString command "topic") configs nm
            split_ifs <;> first | exact hops | simp
        · rw [if_neg h3]
          by_cases h4 : action = "modify_all_partitions"
          · subst h4; rw [if_pos rfl]
            split_ifs with hg
            · cases hd : env.topicDetailsRes with
              | none => simp [getTopicDetailsClient, hd]
              | some topics =>
                have hops := noDel_allParts env (getNum command "partitions") topics nm
                simp only [getTopicDetailsClient, hd]
                intro h
                rcases List.mem_append.mp h with h | h
                · simp at h
                · exact hops h
            · simp
          · rw [if_neg h4]
            by_cases h5 : action = "modify_all_configs"
            · subst h5; rw [if_pos rfl]
              cases hc : getObj command "configs" with
              | none => simp
              | some configs =>
                dsimp only
                cases hd : env.topicDetailsRes with
                | none => simp [getTopicDetailsClient, hd]
                | some topics =>
                  have hops := noDel_allConfigs env configs topics nm
                  simp only [getTopicDetailsClient, hd]
                  intro h
                  rcases List.mem_append.mp h with h | h
                  · simp at h
                  · exact hops h
            · rw [if_neg h5]
              by_cases h6 : action = "query_consumer_groups"
              · subst h6; rw [if_pos rfl]
                cases hg : env.consumerGroupsRes <;>
                  simp [getConsumerGroupsClient, hg]
              · rw [if_neg h6]
                by_cases h7 : action = "query_topics"
                · subst h7; rw [if_pos rfl]
                  cases hd : env.topicDetailsRes with
                  | none => simp [getTopicDetailsClient, hd]
                  | some topics =>
                    have hf := noDel_filterTopics env (getObj command "filter") topics nm
                    have hdesc := noDel_describeTopics env
                      ((getObj command "filter").bind (fun f => jlookup f "compression")).isSome
                      (filterTopicsLoop env (getObj command "filter") topics).1 nm
                    simp only [getTopicDetailsClient, hd]
                    intro h
                    rcases List.mem_append.mp h with h | h
                    · rcases List.mem_append.mp h with h | h
                      · simp at h
                      · exact hf h
                    · exact hdesc h
                · rw [if_neg h7]
                  simp

/-- C4: no recognized action discriminator can reach topic deletion —
for every cluster environment and every parsed command, neither the
single-command dispatch nor the batch executor ever issues a
`DeleteTopic` RPC; deletion is structurally inexpressible by the action
grammar (only the separate `DeleteTopic` client function, which the
dispatch never calls, can emit it). -/
theorem dispatch_never_deletes :
    ∀ (env : ClusterEnv) (command : JObj) (commands : List JObj) (nm : String),
      ClusterOp.deleteTopicOp nm ∉ (executeSingleCommand env command).2
      ∧ ClusterOp.deleteTopicOp nm ∉ (executeMultipleCommands env commands).2 := by
  intro env command commands nm
  exact ⟨noDel_executeSingle env command nm, noDel_batchFrom env commands 0 nm⟩

/-- Witness for C4: at a concrete environment and a command that asks
for `delete_topic` by name, neither execution path issues a
`DeleteTopic` RPC (the record is simply not dispatched). -/
theorem dispatch_never_deletes_witness :
    ClusterOp.deleteTopicOp "events"
        ∉ (executeSingleCommand envSimple
            [("action", JValue.str "delete_topic"), ("name", JValue.str "events")]).2
    ∧ ClusterOp.deleteTopicOp "events"
        ∉ (executeMultipleCommands envSimple
            [[("action", JValue.str "delete_topic"), ("name", JValue.str "events")]]).2 :=
  dispatch_never_deletes envSimple
    [("action", JValue.str "delete_topic"), ("name", JValue.str "events")]
    [[("action", JValue.str "delete_topic"), ("name", JValue.str "events")]] "events"

/-! ## C5: balanced-brace extraction keeps decodable action objects in order -/

/-- The per-span decision of the extraction loop: keep a span exactly
when it decodes and the decoded object has an `action` key. -/
def spanToCommand (decode : String → Option JObj) (span : List Char) : Option JObj :=
  match decode (String.mk span) with
  | some command => if (jlookup command "action").isSome then some command else none
  | none => none

/-- A decode oracle (`json.Unmarshal` test double) recognising the two
literal JSON objects of the back-to-back example. -/
def decodeStub : String → Option JObj := fun s =>
  if s = "\x7b\"action\":\"create_topic\",\"name\":\"events\"\x7d" then
    some [("action", JValue.str "create_topic"), ("name", JValue.str "events")]
  else if s = "\x7b\"action\":\"modify_partitions\",\"topic\":\"events\"\x7d" then
    some [("action", JValue.str "modify_partitions"), ("topic", JValue.str "events")]
  else none

/-- A fenced model response carrying two JSON objects back-to-back amid
prose. -/
def backToBackResponse : String :=
  "```json\nSure!\x7b\"action\":\"create_topic\",\"name\":\"events\"\x7d\x7b\"action\":\"modify_partitions\",\"topic\":\"events\"\x7d done\n```"

/-- C5: the extraction loop equals, for every decode oracle, fuel and
input, the in-order filterMap of the per-span decision over the
balanced-brace spans found left to right — spans that fail to decode or
lack an `action` key are discarded, the rest are kept in their order of
appearance; and on a fenced response holding two JSON objects
back-to-back the parser yields exactly those two ActionRecords in text
order. -/
theorem parseCommands_spans_in_order :
    (∀ (decode : String → Option JObj) (fuel : Nat) (cs : List Char),
       extractLoop decode fuel cs
         = (extractSpans fuel cs).filterMap (spanToCommand decode))
    ∧ parseCommands decodeStub backToBackResponse
        = [[("action", JValue.str "create_topic"), ("name", JValue.str "events")],
           [("action", JValue.str "modify_partitions"), ("topic", JValue.str "events")]] := by
  constructor
  · intro decode fuel
    induction fuel with
    | zero => intro cs; rfl
    | succ n ih =>
      intro cs
      unfold extractLoop extractSpans
      dsimp only
      cases hscan : scanSpan [] 0 (cs.dropWhile (fun c => c ≠ '{')) with
      | none => rfl
      | some pr =>
        obtain ⟨span, rest⟩ := pr
        dsimp only
        simp only [List.filterMap_cons]
        rw [ih rest]
        cases hdec : decode (String.mk span) with
        | none => simp [spanToCommand, hdec]
        | some command =>
          by_cases hact : (jlookup command "action").isSome <;>
            simp [spanToCommand, hdec, hact]
  · rfl

end KConduit
